import Mathlib

/-!
Shallow embedding of the `agora_log` structured-logging pipeline
(`src/agora_log/logger.py`, `level.py`, `handlers/...`) together with
theorems checking the natural-language specification against it.

Python dicts are modelled as insertion-ordered association lists with
unique keys (`Dict`); Python values stored in context maps are modelled
by `PVal`, whose mutable objects carry an address so that aliasing and
`copy.deepcopy` can be reasoned about.  Handlers are modelled as the
lists of entries they have received; injected faults model I/O errors.
-/

namespace AgoraLog

/-- A Python value held in a logging context map.  Strings and numbers
are immutable; a `list` is a mutable object and carries the identity
(address) of the underlying Python object, so that aliasing under
`copy.deepcopy` is observable in the model. -/
inductive PVal where
| str (s : String)
| num (q : Rat)
| list (addr : Nat) (elems : List PVal)

/-- The pure shape of a `PVal` with object identities erased: two values
denote the same `Tree` exactly when they are structurally equal in
Python's `==` sense. -/
inductive Tree where
| str (s : String)
| num (q : Rat)
| node (ts : List Tree)

mutual

/-- Erase object identities, keeping only structure. -/
def denote : PVal → Tree
| .str s => .str s
| .num q => .num q
| .list _ es => .node (denoteL es)

/-- `denote` mapped over a list of values. -/
def denoteL : List PVal → List Tree
| [] => []
| v :: vs => denote v :: denoteL vs

end

mutual

/-- Model of `copy.deepcopy`: the structure is copied unchanged while
every mutable object receives a fresh address (all addresses are shifted
by the allocation offset `off`, which the caller chooses beyond every
live address). -/
def shiftAddrs (off : Nat) : PVal → PVal
| .str s => .str s
| .num q => .num q
| .list a es => .list (a + off) (shiftAddrsL off es)

/-- `shiftAddrs` mapped over a list of values. -/
def shiftAddrsL (off : Nat) : List PVal → List PVal
| [] => []
| v :: vs => shiftAddrs off v :: shiftAddrsL off vs

end

/-- `copy.deepcopy(v)` at allocation offset `off`. -/
def deepcopy (off : Nat) (v : PVal) : PVal := shiftAddrs off v

mutual

/-- Every mutable-object address occurring in the value is `≥ n`. -/
def addrsGE (n : Nat) : PVal → Bool
| .str _ => true
| .num _ => true
| .list a es => decide (n ≤ a) && addrsGEL n es

/-- `addrsGE` over a list of values. -/
def addrsGEL (n : Nat) : List PVal → Bool
| [] => true
| v :: vs => addrsGE n v && addrsGEL n vs

end

mutual

/-- Every mutable-object address occurring in the value is `< n`. -/
def addrsLT (n : Nat) : PVal → Bool
| .str _ => true
| .num _ => true
| .list a es => decide (a < n) && addrsLTL n es

/-- `addrsLT` over a list of values. -/
def addrsLTL (n : Nat) : List PVal → Bool
| [] => true
| v :: vs => addrsLT n v && addrsLTL n vs

end

mutual

/-- In-place mutation of the Python object at address `a`: its element
list is rewritten by `f`.  Every occurrence of the object in a value is
affected, which is exactly what aliasing means. -/
def mutateAt (a : Nat) (f : List PVal → List PVal) : PVal → PVal
| .str s => .str s
| .num q => .num q
| .list b es =>
    if b = a then .list b (f (mutateAtL a f es)) else .list b (mutateAtL a f es)

/-- `mutateAt` over a list of values. -/
def mutateAtL (a : Nat) (f : List PVal → List PVal) : List PVal → List PVal
| [] => []
| v :: vs => mutateAt a f v :: mutateAtL a f vs

end

mutual

theorem denote_shift (off : Nat) (v : PVal) : denote (shiftAddrs off v) = denote v := by
  cases v with
  | str s => rfl
  | num q => rfl
  | list a es => simp [shiftAddrs, denote, denoteL_shift]

theorem denoteL_shift (off : Nat) (vs : List PVal) : denoteL (shiftAddrsL off vs) = denoteL vs := by
  cases vs with
  | nil => rfl
  | cons v vs => simp [shiftAddrsL, denoteL, denote_shift, denoteL_shift]

end

mutual

theorem addrsGE_shift (off n : Nat) (v : PVal) (h : n ≤ off) :
    addrsGE n (shiftAddrs off v) = true := by
  cases v with
  | str s => rfl
  | num q => rfl
  | list a es =>
      simp only [shiftAddrs, addrsGE, Bool.and_eq_true, decide_eq_true_eq]
      exact ⟨Nat.le_trans h (Nat.le_add_left off a), addrsGEL_shift off n es h⟩

theorem addrsGEL_shift (off n : Nat) (vs : List PVal) (h : n ≤ off) :
    addrsGEL n (shiftAddrsL off vs) = true := by
  cases vs with
  | nil => rfl
  | cons v vs =>
      simp only [shiftAddrsL, addrsGEL, Bool.and_eq_true]
      exact ⟨addrsGE_shift off n v h, addrsGEL_shift off n vs h⟩

end

mutual

theorem mutateAt_eq_of_ge (n a : Nat) (f : List PVal → List PVal) (v : PVal)
    (hv : addrsGE n v = true) (ha : a < n) : mutateAt a f v = v := by
  cases v with
  | str s => rfl
  | num q => rfl
  | list b es =>
      simp only [addrsGE, Bool.and_eq_true, decide_eq_true_eq] at hv
      have hne : b ≠ a := by omega
      simp [mutateAt, hne, mutateAtL_eq_of_ge n a f es hv.2 ha]

theorem mutateAtL_eq_of_ge (n a : Nat) (f : List PVal → List PVal) (vs : List PVal)
    (hv : addrsGEL n vs = true) (ha : a < n) : mutateAtL a f vs = vs := by
  cases vs with
  | nil => rfl
  | cons v vs =>
      simp only [addrsGEL, Bool.and_eq_true] at hv
      simp [mutateAtL, mutateAt_eq_of_ge n a f v hv.1 ha, mutateAtL_eq_of_ge n a f vs hv.2 ha]

end

mutual

theorem mutateAt_eq_of_lt (n a : Nat) (f : List PVal → List PVal) (v : PVal)
    (hv : addrsLT n v = true) (ha : n ≤ a) : mutateAt a f v = v := by
  cases v with
  | str s => rfl
  | num q => rfl
  | list b es =>
      simp only [addrsLT, Bool.and_eq_true, decide_eq_true_eq] at hv
      have hne : b ≠ a := by omega
      simp [mutateAt, hne, mutateAtL_eq_of_lt n a f es hv.2 ha]

theorem mutateAtL_eq_of_lt (n a : Nat) (f : List PVal → List PVal) (vs : List PVal)
    (hv : addrsLTL n vs = true) (ha : n ≤ a) : mutateAtL a f vs = vs := by
  cases vs with
  | nil => rfl
  | cons v vs =>
      simp only [addrsLTL, Bool.and_eq_true] at hv
      simp [mutateAtL, mutateAt_eq_of_lt n a f v hv.1 ha, mutateAtL_eq_of_lt n a f vs hv.2 ha]

end

/-- A Python dict with string keys: an insertion-ordered association
list.  All dicts manipulated by the logger have unique keys. -/
abbrev Dict (α : Type) := List (String × α)

/-- Python dict lookup `d.get(key)`. -/
def dget {α : Type} : Dict α → String → Option α
| [], _ => none
| (k, v) :: rest, key => if k = key then some v else dget rest key

/-- Python dict assignment `d[key] = val`: replaces in place, else
appends (preserving insertion order). -/
def dset {α : Type} : Dict α → String → α → Dict α
| [], key, val => [(key, val)]
| (k, v) :: rest, key, val =>
    if k = key then (k, val) :: rest else (k, v) :: dset rest key val

/-- Python `del d[key]` (no-op when the key is absent, which the source
never relies on: it deletes only keys it has just tested for). -/
def ddel {α : Type} : Dict α → String → Dict α
| [], _ => []
| (k, v) :: rest, key => if k = key then rest else (k, v) :: ddel rest key

/-- Python dict-merge `···(**a, **b)` / successive assignment: pairs of
`upd` are written over `base` in order, so later keys win. -/
def dmerge {α : Type} (base upd : Dict α) : Dict α :=
  upd.foldl (fun d kv => dset d kv.1 kv.2) base

/-- The keys of a dict are pairwise distinct (true of every real Python
dict). -/
def nodupKeys {α : Type} (d : Dict α) : Prop := (d.map Prod.fst).Nodup

instance {α : Type} (d : Dict α) : Decidable (nodupKeys d) := by
  unfold nodupKeys; infer_instance

theorem dget_dset_self {α : Type} (d : Dict α) (k : String) (v : α) :
    dget (dset d k v) k = some v := by
  induction d with
  | nil => simp [dset, dget]
  | cons p rest ih =>
      by_cases h : p.1 = k
      · simp [dset, dget, h]
      · simp [dset, dget, h, ih]

theorem dget_dset_ne {α : Type} (d : Dict α) (k k' : String) (v : α) (h : k ≠ k') :
    dget (dset d k v) k' = dget d k' := by
  induction d with
  | nil => simp [dset, dget, h]
  | cons p rest ih =>
      by_cases hp : p.1 = k
      · simp [dset, dget, hp, h]
      · by_cases hp' : p.1 = k'
        · simp [dset, dget, hp, hp', Ne.symm h]
        · simp [dset, dget, hp, hp', ih]

theorem dget_ddel_ne {α : Type} (d : Dict α) (k k' : String) (h : k ≠ k') :
    dget (ddel d k) k' = dget d k' := by
  induction d with
  | nil => simp [ddel]
  | cons p rest ih =>
      by_cases hp : p.1 = k
      · subst hp; simp [ddel, dget, h]
      · by_cases hp' : p.1 = k'
        · simp [ddel, dget, hp, hp', Ne.symm h]
        · simp [ddel, dget, hp, hp', ih]

theorem dget_eq_none_of_not_mem_keys {α : Type} (d : Dict α) (k : String)
    (h : k ∉ d.map Prod.fst) : dget d k = none := by
  induction d with
  | nil => rfl
  | cons p rest ih =>
      simp only [List.map_cons, List.mem_cons, not_or] at h
      have : p.1 ≠ k := fun he => h.1 he.symm
      simp [dget, this, ih h.2]

theorem dget_ddel_self {α : Type} (d : Dict α) (k : String) (hd : nodupKeys d) :
    dget (ddel d k) k = none := by
  induction d with
  | nil => rfl
  | cons p rest ih =>
      simp only [nodupKeys, List.map_cons, List.nodup_cons] at hd
      by_cases hp : p.1 = k
      · subst hp
        simp only [ddel, if_pos rfl]
        exact dget_eq_none_of_not_mem_keys rest p.1 hd.1
      · simp [ddel, dget, hp, ih hd.2]

theorem mem_keys_dset {α : Type} (d : Dict α) (k : String) (v : α) (x : String) :
    x ∈ (dset d k v).map Prod.fst ↔ x ∈ d.map Prod.fst ∨ x = k := by
  induction d with
  | nil => simp [dset]
  | cons p rest ih =>
      by_cases hp : p.1 = k
      · subst hp
        rw [show dset (p :: rest) p.1 v = (p.1, v) :: rest from by simp [dset]]
        simp only [List.map_cons, List.mem_cons]
        tauto
      · simp only [dset, if_neg hp, List.map_cons, List.mem_cons, ih]
        tauto

theorem nodupKeys_dset {α : Type} (d : Dict α) (k : String) (v : α) (hd : nodupKeys d) :
    nodupKeys (dset d k v) := by
  induction d with
  | nil => simp [dset, nodupKeys]
  | cons p rest ih =>
      simp only [nodupKeys, List.map_cons, List.nodup_cons] at hd
      by_cases hp : p.1 = k
      · subst hp
        rw [show dset (p :: rest) p.1 v = (p.1, v) :: rest from by simp [dset]]
        simp only [nodupKeys, List.map_cons, List.nodup_cons]
        exact hd
      · have hres := ih hd.2
        have hmem : p.1 ∉ (dset rest k v).map Prod.fst := by
          rw [mem_keys_dset]
          push_neg
          exact ⟨hd.1, hp⟩
        simp only [dset, if_neg hp, nodupKeys, List.map_cons, List.nodup_cons]
        exact ⟨hmem, hres⟩

theorem nodupKeys_dmerge {α : Type} (base upd : Dict α) (hb : nodupKeys base) :
    nodupKeys (dmerge base upd) := by
  induction upd generalizing base with
  | nil => simpa [dmerge] using hb
  | cons p rest ih =>
      simpa [dmerge] using ih (dset base p.1 p.2) (nodupKeys_dset base p.1 p.2 hb)

theorem dget_foldl_dset_of_none {α : Type} (upd : Dict α) (base : Dict α) (k : String)
    (h : dget upd k = none) :
    dget (upd.foldl (fun d kv => dset d kv.1 kv.2) base) k = dget base k := by
  induction upd generalizing base with
  | nil => rfl
  | cons p rest ih =>
      by_cases hp : p.1 = k
      · simp [dget, hp] at h
      · simp only [dget, if_neg hp] at h
        simpa [List.foldl] using (ih (dset base p.1 p.2) h).trans (dget_dset_ne base p.1 k p.2 hp)

theorem dget_foldl_dset_of_some {α : Type} (upd : Dict α) (base : Dict α) (k : String) (v : α)
    (hnd : nodupKeys upd) (h : dget upd k = some v) :
    dget (upd.foldl (fun d kv => dset d kv.1 kv.2) base) k = some v := by
  induction upd generalizing base with
  | nil => simp [dget] at h
  | cons p rest ih =>
      simp only [nodupKeys, List.map_cons, List.nodup_cons] at hnd
      by_cases hp : p.1 = k
      · subst hp
        rw [show dget (p :: rest) p.1 = some p.2 from by simp [dget]] at h
        rw [Option.some.injEq] at h
        have hrest : dget rest p.1 = none := dget_eq_none_of_not_mem_keys rest p.1 hnd.1
        have hnone := dget_foldl_dset_of_none rest (dset base p.1 p.2) p.1 hrest
        simp only [List.foldl_cons]
        rw [hnone, dget_dset_self, h]
      · simp only [dget, if_neg hp] at h
        simp only [List.foldl_cons]
        exact ih (dset base p.1 p.2) hnd.2 h

theorem dget_dmerge_of_none {α : Type} (base upd : Dict α) (k : String)
    (h : dget upd k = none) : dget (dmerge base upd) k = dget base k :=
  dget_foldl_dset_of_none upd base k h

theorem dget_dmerge_of_some {α : Type} (base upd : Dict α) (k : String) (v : α)
    (hnd : nodupKeys upd) (h : dget upd k = some v) : dget (dmerge base upd) k = some v :=
  dget_foldl_dset_of_some upd base k v hnd h

/-- `agora_log.level.LogLevel`: the five standard levels. -/
inductive LogLevel where
| debug
| info
| warning
| error
| critical
deriving DecidableEq

/-- The integer ordinal of a level (`LogLevel` is an `IntEnum` in the
source: DEBUG=10, INFO=20, WARNING=30, ERROR=40, CRITICAL=50). -/
def LogLevel.value : LogLevel → Nat
| .debug => 10
| .info => 20
| .warning => 30
| .error => 40
| .critical => 50

/-- `level.name` of the `IntEnum` member. -/
def LogLevel.name : LogLevel → String
| .debug => "DEBUG"
| .info => "INFO"
| .warning => "WARNING"
| .error => "ERROR"
| .critical => "CRITICAL"

/-- One Python stack frame, with the fields `_capture_source_location`
reads from it. -/
structure Frame where
  co_filename : String
  f_lineno : Nat
  co_name : String

/-- Scan the characters of a path, keeping the text accumulated since
the most recent slash. -/
def basenameAux : List Char → List Char → List Char
| [], acc => acc.reverse
| c :: cs, acc => if c = '/' then basenameAux cs [] else basenameAux cs (c :: acc)

/-- `os.path.basename` on a POSIX path: the text after the final slash. -/
def basename (p : String) : String := String.mk (basenameAux p.data [])

/-- `logger.SourceLocation`. -/
structure SourceLocation where
  file : String
  line : Nat
  function : String
deriving DecidableEq

/-- `logger._capture_source_location`: walk `stack_depth` frames back
from the current frame (the head of `frames`); if the walk runs off the
stack, return the fallback location, otherwise read basename, line and
code name from the reached frame. -/
def capture_source_location (stack_depth : Nat) (frames : List Frame) : SourceLocation :=
  match frames.drop stack_depth with
  | [] => ⟨"<unknown>", 0, "<unknown>"⟩
  | f :: _ => ⟨basename f.co_filename, f.f_lineno, f.co_name⟩

/-- `config.LogConfig`, restricted to the fields `Logger._log` reads. -/
structure LogConfig where
  service_name : String
  environment : String
  version : String
  level : LogLevel

/-- The error descriptor attached to an entry: type name, message and
formatted stack trace of the Python exception object. -/
structure ErrInfo where
  excType : String
  excMessage : String
  stacktrace : String
deriving DecidableEq

/-- The log entry dict built by `Logger._log`, as a structured record.
The four promoted identity keys are top-level optional fields; every
other merged key lives only in `context`. -/
structure Entry where
  timestamp : String
  level : String
  message : String
  service : String
  environment : String
  version : String
  host : String
  logger_name : String
  file : String
  line : Nat
  function : String
  context : Dict PVal
  correlation_id : Option PVal
  user_id : Option PVal
  trace_id : Option PVal
  span_id : Option PVal
  exception : Option ErrInfo

/-- The reserved keys promoted from the merged context to the entry's
top level (`special_keys` in `Logger._log`). -/
def special_keys : List String := ["correlation_id", "user_id", "trace_id", "span_id"]

/-- The entry-construction block of `Logger._log`: merge the receiver
context with the call's keyword fields (fields win), attach the
mandatory source-location triple, promote the reserved keys out of the
nested context, and attach the error descriptor if present. -/
def buildEntry (cfg : LogConfig) (logger_name ts host : String) (level : LogLevel)
    (message : String) (exc : Option ErrInfo) (ctx kwargs : Dict PVal)
    (source : SourceLocation) : Entry :=
  let merged := dmerge ctx kwargs
  { timestamp := ts
    level := level.name
    message := message
    service := cfg.service_name
    environment := cfg.environment
    version := cfg.version
    host := host
    logger_name := logger_name
    file := source.file
    line := source.line
    function := source.function
    context := special_keys.foldl (fun d k => ddel d k) merged
    correlation_id := dget merged "correlation_id"
    user_id := dget merged "user_id"
    trace_id := dget merged "trace_id"
    span_id := dget merged "span_id"
    exception := exc }

/-- `logger.Logger`: a name, the configuration, and the immutable
context map.  The handler chain is passed to the dispatch functions as
the list of entry sequences each handler has received. -/
structure Logger where
  name : String
  config : LogConfig
  context : Dict PVal

/-- `Logger._log`: return unchanged handler logs when the call level is
below the configured threshold; otherwise capture the source location
three frames up, build the entry and append it to every handler's log,
in order.  `frames` is the frame stack as seen from inside
`_capture_source_location` (its own frame first, then `_log`, then the
public level method, then the caller's frames). -/
def Logger.log (L : Logger) (level : LogLevel) (message : String) (exc : Option ErrInfo)
    (kwargs : Dict PVal) (frames : List Frame) (ts host : String)
    (handlers : List (List Entry)) : List (List Entry) :=
  if level.value < L.config.level.value then handlers
  else
    let source := capture_source_location 3 frames
    let entry := buildEntry L.config L.name ts host level message exc L.context kwargs source
    handlers.map (fun h => h ++ [entry])

/-- C1: for every configured minimum level T and every call level L
(ordinals DEBUG=10 < INFO=20 < WARNING=30 < ERROR=40 < CRITICAL=50),
the built record is appended to every configured handler's log exactly
when `value L ≥ value T`; when `value L < value T` the call leaves every
handler untouched and emits nothing. -/
theorem level_filter_iff (L : Logger) (level : LogLevel) (message : String)
    (exc : Option ErrInfo) (kwargs : Dict PVal) (frames : List Frame) (ts host : String)
    (handlers : List (List Entry)) (i : Nat) (hl : List Entry)
    (hi : handlers[i]? = some hl) :
    ((Logger.log L level message exc kwargs frames ts host handlers)[i]? =
        some (hl ++ [buildEntry L.config L.name ts host level message exc L.context kwargs
          (capture_source_location 3 frames)])
      ↔ L.config.level.value ≤ level.value)
    ∧ (level.value < L.config.level.value →
        Logger.log L level message exc kwargs frames ts host handlers = handlers) := by
  by_cases h : level.value < L.config.level.value
  · refine ⟨⟨fun hc => ?_, fun hc => absurd h (Nat.not_lt.mpr hc)⟩, fun _ => by
      simp [Logger.log, h]⟩
    rw [Logger.log, if_pos h, hi] at hc
    injection hc with hc
    have hlen := congrArg List.length hc
    simp at hlen
  · refine ⟨⟨fun _ => Nat.le_of_not_lt h, fun _ => ?_⟩, fun hc => absurd hc h⟩
    rw [Logger.log, if_neg h]
    simp [List.getElem?_map, hi]

/-- Witness for C1 at a concrete input: threshold INFO, call at INFO. -/
theorem level_filter_iff_witness :
    ((Logger.log ⟨"svc", ⟨"svc", "development", "1.0", .info⟩, []⟩ .info "hello" none []
        [] "2026-01-01T00:00:00+00:00" "host0" [[]])[0]? =
      some ([] ++ [buildEntry ⟨"svc", "development", "1.0", .info⟩ "svc"
        "2026-01-01T00:00:00+00:00" "host0" .info "hello" none [] []
        (capture_source_location 3 [])])
      ↔ LogLevel.value .info ≤ LogLevel.value .info)
    ∧ (LogLevel.value .info < LogLevel.value .info →
        Logger.log ⟨"svc", ⟨"svc", "development", "1.0", .info⟩, []⟩ .info "hello" none []
          [] "2026-01-01T00:00:00+00:00" "host0" [[]] = [[]]) :=
  level_filter_iff ⟨"svc", ⟨"svc", "development", "1.0", .info⟩, []⟩ .info "hello" none []
    [] "2026-01-01T00:00:00+00:00" "host0" [[]] 0 [] rfl

/-- The entry built by a log call whose frame walk runs off the stack:
`_capture_source_location` then returns its fallback location. -/
def fallbackEntry : Entry :=
  buildEntry ⟨"svc", "development", "1.0", .debug⟩ "svc" "t0" "h0" .info "boom" none [] []
    (capture_source_location 3 [])

/-- C2 counterexample: a log call made with no caller frame available at
the capture depth is still above the threshold and is forwarded to the
handler, but the emitted record has `line = 0` (the fallback branch of
`_capture_source_location`), so the claimed `line > 0` fails. -/
theorem source_triple_cex :
    Logger.log ⟨"svc", ⟨"svc", "development", "1.0", .debug⟩, []⟩ .info "boom" none [] []
        "t0" "h0" [[]] = [[fallbackEntry]]
    ∧ fallbackEntry.line = 0
    ∧ ¬ 0 < fallbackEntry.line
    ∧ fallbackEntry.file = "<unknown>"
    ∧ fallbackEntry.function = "<unknown>" :=
  ⟨rfl, rfl, by decide, rfl, rfl⟩

/-- C2 amended: every emitted record carries the source-location triple.
When the caller frame is available at the capture depth and has a
positive line number, a non-empty file basename and a non-empty code
name (as every real CPython frame does), the emitted record's file is
non-empty, its line is strictly positive and its function is non-empty;
when no frame is available the code instead emits the fallback triple
with file and function equal to "<unknown>" (still non-empty) and
`line = 0`. -/
theorem source_triple_amended (L : Logger) (level : LogLevel) (message : String)
    (exc : Option ErrInfo) (kwargs : Dict PVal) (frames rest : List Frame) (f : Frame)
    (ts host : String) (handlers : List (List Entry)) (i : Nat) (hl : List Entry)
    (hf : frames.drop 3 = f :: rest) (hline : 0 < f.f_lineno)
    (hfile : basename f.co_filename ≠ "") (hfn : f.co_name ≠ "")
    (hlev : L.config.level.value ≤ level.value) (hi : handlers[i]? = some hl) :
    (Logger.log L level message exc kwargs frames ts host handlers)[i]? =
      some (hl ++ [buildEntry L.config L.name ts host level message exc L.context kwargs
        (capture_source_location 3 frames)])
    ∧ (buildEntry L.config L.name ts host level message exc L.context kwargs
        (capture_source_location 3 frames)).file ≠ ""
    ∧ 0 < (buildEntry L.config L.name ts host level message exc L.context kwargs
        (capture_source_location 3 frames)).line
    ∧ (buildEntry L.config L.name ts host level message exc L.context kwargs
        (capture_source_location 3 frames)).function ≠ "" := by
  have hsrc : capture_source_location 3 frames =
      ⟨basename f.co_filename, f.f_lineno, f.co_name⟩ := by
    rw [capture_source_location, hf]
  refine ⟨?_, ?_, ?_, ?_⟩
  · rw [Logger.log, if_neg (Nat.not_lt.mpr hlev)]
    simp [List.getElem?_map, hi]
  · rw [hsrc]; exact hfile
  · rw [hsrc]; exact hline
  · rw [hsrc]; exact hfn

/-- Witness for the amended C2 at a concrete frame stack. -/
theorem source_triple_amended_witness :
    (Logger.log ⟨"svc", ⟨"svc", "development", "1.0", .debug⟩, []⟩ .info "m" none []
        [⟨"logger.py", 46, "capture"⟩, ⟨"logger.py", 122, "log_impl"⟩,
         ⟨"logger.py", 168, "info"⟩, ⟨"app/main.py", 42, "handle_request"⟩]
        "t0" "h0" [[]])[0]? =
      some ([] ++ [buildEntry ⟨"svc", "development", "1.0", .debug⟩ "svc" "t0" "h0" .info "m"
        none [] []
        (capture_source_location 3
          [⟨"logger.py", 46, "capture"⟩, ⟨"logger.py", 122, "log_impl"⟩,
           ⟨"logger.py", 168, "info"⟩, ⟨"app/main.py", 42, "handle_request"⟩])])
    ∧ (buildEntry ⟨"svc", "development", "1.0", .debug⟩ "svc" "t0" "h0" .info "m" none [] []
        (capture_source_location 3
          [⟨"logger.py", 46, "capture"⟩, ⟨"logger.py", 122, "log_impl"⟩,
           ⟨"logger.py", 168, "info"⟩, ⟨"app/main.py", 42, "handle_request"⟩])).file ≠ ""
    ∧ 0 < (buildEntry ⟨"svc", "development", "1.0", .debug⟩ "svc" "t0" "h0" .info "m" none [] []
        (capture_source_location 3
          [⟨"logger.py", 46, "capture"⟩, ⟨"logger.py", 122, "log_impl"⟩,
           ⟨"logger.py", 168, "info"⟩, ⟨"app/main.py", 42, "handle_request"⟩])).line
    ∧ (buildEntry ⟨"svc", "development", "1.0", .debug⟩ "svc" "t0" "h0" .info "m" none [] []
        (capture_source_location 3
          [⟨"logger.py", 46, "capture"⟩, ⟨"logger.py", 122, "log_impl"⟩,
           ⟨"logger.py", 168, "info"⟩, ⟨"app/main.py", 42, "handle_request"⟩])).function ≠ "" :=
  source_triple_amended ⟨"svc", ⟨"svc", "development", "1.0", .debug⟩, []⟩ .info "m" none []
    [⟨"logger.py", 46, "capture"⟩, ⟨"logger.py", 122, "log_impl"⟩,
     ⟨"logger.py", 168, "info"⟩, ⟨"app/main.py", 42, "handle_request"⟩]
    [] ⟨"app/main.py", 42, "handle_request"⟩ "t0" "h0" [[]] 0 [] rfl (by decide)
    (by decide) (by decide) (by decide) rfl

/-- Apply a value transformation to every value of a dict, keeping keys
(used to express "mutate the object at address a everywhere"). -/
def mapVals (g : PVal → PVal) (d : Dict PVal) : Dict PVal :=
  d.map (fun kv => (kv.1, g kv.2))

/-- Identity-erasing denotation of a whole context dict. -/
def denoteD (d : Dict PVal) : Dict Tree :=
  d.map (fun kv => (kv.1, denote kv.2))

/-- Every object address in every value of the dict is below `n`. -/
def ctxAddrsLT (n : Nat) (d : Dict PVal) : Bool := d.all (fun kv => addrsLT n kv.2)

/-- Every object address in every value of the dict is at least `n`. -/
def ctxAddrsGE (n : Nat) (d : Dict PVal) : Bool := d.all (fun kv => addrsGE n kv.2)

/-- `copy.deepcopy(self._context)` at allocation counter `n`: a fresh
dict whose values are deep copies; the counter is advanced past every
address handed out.  Returns the copied dict and the new counter. -/
def copyCtx (ctx : Dict PVal) (n : Nat) : Dict PVal × Nat :=
  ctx.foldl (fun acc kv => (acc.1 ++ [(kv.1, deepcopy acc.2 kv.2)], 2 * acc.2)) ([], n)

/-- `Logger.with_context`: deep copy the receiver's context, then write
each caller pair on top with its value deep-copied (later keys win),
and return a new Logger with the same name and configuration; the
receiver is not modified.  `n` is the allocation counter: every live
object address (in particular every address reachable from the
receiver's context and from the caller's pairs) is `< n`. -/
def Logger.with_context (L : Logger) (pairs : List (String × PVal)) (n : Nat) :
    Logger × Nat :=
  let c := copyCtx L.context n
  let r := pairs.foldl (fun acc kv => (dset acc.1 kv.1 (deepcopy acc.2 kv.2), 2 * acc.2)) c
  (⟨L.name, L.config, r.1⟩, r.2)

theorem map_dset {α β : Type} (h : α → β) (d : Dict α) (k : String) (v : α) :
    (dset d k v).map (fun kv => (kv.1, h kv.2)) =
      dset (d.map (fun kv => (kv.1, h kv.2))) k (h v) := by
  induction d with
  | nil => simp [dset]
  | cons p rest ih =>
      by_cases hp : p.1 = k
      · simp [dset, hp]
      · simp [dset, hp, ih]

theorem denoteD_append (d e : Dict PVal) : denoteD (d ++ e) = denoteD d ++ denoteD e := by
  simp [denoteD]

theorem denoteD_copyCtx_go (ctx acc : Dict PVal) (m : Nat) :
    denoteD (ctx.foldl
        (fun acc kv => (acc.1 ++ [(kv.1, deepcopy acc.2 kv.2)], 2 * acc.2)) (acc, m)).1 =
      denoteD acc ++ denoteD ctx := by
  induction ctx generalizing acc m with
  | nil => simp [denoteD]
  | cons p rest ih =>
      simp only [List.foldl_cons]
      rw [ih]
      simp [denoteD_append, denoteD, deepcopy, denote_shift]

theorem denoteD_copyCtx (ctx : Dict PVal) (n : Nat) :
    denoteD (copyCtx ctx n).1 = denoteD ctx := by
  rw [copyCtx, denoteD_copyCtx_go]
  simp [denoteD]

theorem denoteD_pairs_fold (pairs : List (String × PVal)) (c : Dict PVal) (m : Nat) :
    denoteD (pairs.foldl
        (fun acc kv => (dset acc.1 kv.1 (deepcopy acc.2 kv.2), 2 * acc.2)) (c, m)).1 =
      (pairs.map (fun kv => (kv.1, denote kv.2))).foldl
        (fun d kv => dset d kv.1 kv.2) (denoteD c) := by
  induction pairs generalizing c m with
  | nil => rfl
  | cons p rest ih =>
      simp only [List.foldl_cons, List.map_cons]
      rw [ih]
      congr 1
      rw [denoteD, map_dset denote c p.1 (deepcopy m p.2)]
      simp [denoteD, deepcopy, denote_shift]

theorem ctxAddrsGE_append (n : Nat) (d e : Dict PVal) :
    ctxAddrsGE n (d ++ e) = (ctxAddrsGE n d && ctxAddrsGE n e) := by
  simp [ctxAddrsGE, List.all_append]

theorem ctxAddrsGE_dset (n : Nat) (d : Dict PVal) (k : String) (v : PVal)
    (hd : ctxAddrsGE n d = true) (hv : addrsGE n v = true) :
    ctxAddrsGE n (dset d k v) = true := by
  induction d with
  | nil => simp [dset, ctxAddrsGE, hv]
  | cons p rest ih =>
      simp only [ctxAddrsGE, List.all_cons, Bool.and_eq_true] at hd
      by_cases hp : p.1 = k
      · simp [dset, hp, ctxAddrsGE, hv, hd.2]
      · have := ih hd.2
        simp only [dset, if_neg hp, ctxAddrsGE, List.all_cons, Bool.and_eq_true]
        exact ⟨hd.1, this⟩

theorem ctxAddrsGE_copyCtx_go (ctx acc : Dict PVal) (n m : Nat)
    (hacc : ctxAddrsGE n acc = true) (hm : n ≤ m) :
    ctxAddrsGE n (ctx.foldl
        (fun acc kv => (acc.1 ++ [(kv.1, deepcopy acc.2 kv.2)], 2 * acc.2)) (acc, m)).1 =
      true := by
  induction ctx generalizing acc m with
  | nil => simpa using hacc
  | cons p rest ih =>
      simp only [List.foldl_cons]
      refine ih (acc ++ [(p.1, deepcopy m p.2)]) (2 * m) ?_ (by omega)
      rw [ctxAddrsGE_append]
      simp only [Bool.and_eq_true]
      refine ⟨hacc, ?_⟩
      simp [ctxAddrsGE, deepcopy]
      exact addrsGE_shift m n p.2 hm

theorem ctxAddrsGE_pairs_fold (pairs : List (String × PVal)) (c : Dict PVal) (n m : Nat)
    (hc : ctxAddrsGE n c = true) (hm : n ≤ m) :
    ctxAddrsGE n (pairs.foldl
        (fun acc kv => (dset acc.1 kv.1 (deepcopy acc.2 kv.2), 2 * acc.2)) (c, m)).1 =
      true := by
  induction pairs generalizing c m with
  | nil => simpa using hc
  | cons p rest ih =>
      simp only [List.foldl_cons]
      refine ih (dset c p.1 (deepcopy m p.2)) (2 * m) ?_ (by omega)
      exact ctxAddrsGE_dset n c p.1 (deepcopy m p.2) hc (addrsGE_shift m n p.2 hm)

theorem copyCtx_counter_go (ctx : Dict PVal) (acc : Dict PVal) (n : Nat) :
    (ctx.foldl (fun acc kv => (acc.1 ++ [(kv.1, deepcopy acc.2 kv.2)], 2 * acc.2)) (acc, n)).2
      = 2 ^ ctx.length * n := by
  induction ctx generalizing acc n with
  | nil => simp
  | cons p rest ih =>
      simp only [List.foldl_cons]
      rw [ih]
      simp [List.length_cons, Nat.pow_succ]
      ring

theorem mapVals_eq_of_GE (n a : Nat) (f : List PVal → List PVal) (d : Dict PVal)
    (hd : ctxAddrsGE n d = true) (ha : a < n) : mapVals (mutateAt a f) d = d := by
  induction d with
  | nil => rfl
  | cons p rest ih =>
      simp only [ctxAddrsGE, List.all_cons, Bool.and_eq_true] at hd
      simp only [mapVals, List.map_cons]
      rw [mutateAt_eq_of_ge n a f p.2 hd.1 ha]
      have := ih hd.2
      simp only [mapVals] at this
      rw [this]

theorem mapVals_eq_of_LT (n b : Nat) (g : List PVal → List PVal) (d : Dict PVal)
    (hd : ctxAddrsLT n d = true) (hb : n ≤ b) : mapVals (mutateAt b g) d = d := by
  induction d with
  | nil => rfl
  | cons p rest ih =>
      simp only [ctxAddrsLT, List.all_cons, Bool.and_eq_true] at hd
      simp only [mapVals, List.map_cons]
      rw [mutateAt_eq_of_lt n b g p.2 hd.1 hb]
      have := ih hd.2
      simp only [mapVals] at this
      rw [this]

/-- C3: `with_context(pairs)` returns a new Logger (same name and
configuration) whose context denotes exactly the receiver's context
overlaid with `pairs` (later keys win); the stored values are fresh
copies, so mutating any object the caller already holds (address
`a < n`) leaves the new Logger's stored context literally unchanged;
and the receiver's own context is never altered — mutating any object
allocated by or after the call (address `b ≥ n`) leaves it literally
unchanged. -/
theorem with_context_spec (L : Logger) (pairs : List (String × PVal)) (n a b : Nat)
    (f g : List PVal → List PVal) (ha : a < n) (hb : n ≤ b)
    (hctx : ctxAddrsLT n L.context = true) :
    denoteD ((L.with_context pairs n).1.context) =
      (pairs.map (fun kv => (kv.1, denote kv.2))).foldl
        (fun d kv => dset d kv.1 kv.2) (denoteD L.context)
    ∧ (L.with_context pairs n).1.name = L.name
    ∧ (L.with_context pairs n).1.config = L.config
    ∧ mapVals (mutateAt a f) ((L.with_context pairs n).1.context) =
        (L.with_context pairs n).1.context
    ∧ mapVals (mutateAt b g) L.context = L.context := by
  have hcopyGE : ctxAddrsGE n (copyCtx L.context n).1 = true := by
    rw [copyCtx]
    exact ctxAddrsGE_copyCtx_go L.context [] n n (by simp [ctxAddrsGE]) (Nat.le_refl n)
  have hcn : (copyCtx L.context n).2 = 2 ^ L.context.length * n := by
    rw [copyCtx]
    exact copyCtx_counter_go L.context [] n
  refine ⟨?_, rfl, rfl, ?_, mapVals_eq_of_LT n b g L.context hctx hb⟩
  · show denoteD (pairs.foldl _ (copyCtx L.context n)).1 = _
    rw [denoteD_pairs_fold pairs (copyCtx L.context n).1 (copyCtx L.context n).2,
      denoteD_copyCtx]
  · show mapVals (mutateAt a f) (pairs.foldl _ (copyCtx L.context n)).1 =
      (pairs.foldl _ (copyCtx L.context n)).1
    have hge : ctxAddrsGE n (pairs.foldl
        (fun acc kv => (dset acc.1 kv.1 (deepcopy acc.2 kv.2), 2 * acc.2))
        ((copyCtx L.context n).1, (copyCtx L.context n).2)).1 = true := by
      refine ctxAddrsGE_pairs_fold pairs (copyCtx L.context n).1 n
        (copyCtx L.context n).2 hcopyGE ?_
      rw [hcn]
      calc n = 1 * n := (Nat.one_mul n).symm
      _ ≤ 2 ^ L.context.length * n :=
          Nat.mul_le_mul_right n (Nat.one_le_two_pow)
    exact mapVals_eq_of_GE n a f _ hge ha

/-- Witness for C3 at a concrete receiver, pair list and counter: the
receiver holds a mutable list at address 0, the caller passes another
mutable list at address 0 under the same key and a fresh key. -/
theorem with_context_spec_witness :
    denoteD (((Logger.with_context ⟨"svc", ⟨"svc", "development", "1.0", .info⟩,
        [("tags", PVal.list 0 [PVal.str "a"])]⟩
        [("tags", PVal.list 0 [PVal.str "b"]), ("user", PVal.str "u")] 1).1).context) =
      ([("tags", PVal.list 0 [PVal.str "b"]), ("user", PVal.str "u")].map
          (fun kv => (kv.1, denote kv.2))).foldl
        (fun d kv => dset d kv.1 kv.2)
        (denoteD [("tags", PVal.list 0 [PVal.str "a"])])
    ∧ ((Logger.with_context ⟨"svc", ⟨"svc", "development", "1.0", .info⟩,
        [("tags", PVal.list 0 [PVal.str "a"])]⟩
        [("tags", PVal.list 0 [PVal.str "b"]), ("user", PVal.str "u")] 1).1).name = "svc"
    ∧ ((Logger.with_context ⟨"svc", ⟨"svc", "development", "1.0", .info⟩,
        [("tags", PVal.list 0 [PVal.str "a"])]⟩
        [("tags", PVal.list 0 [PVal.str "b"]), ("user", PVal.str "u")] 1).1).config =
        ⟨"svc", "development", "1.0", .info⟩
    ∧ mapVals (mutateAt 0 (fun es => es ++ [PVal.str "z"]))
        (((Logger.with_context ⟨"svc", ⟨"svc", "development", "1.0", .info⟩,
          [("tags", PVal.list 0 [PVal.str "a"])]⟩
          [("tags", PVal.list 0 [PVal.str "b"]), ("user", PVal.str "u")] 1).1).context) =
        (((Logger.with_context ⟨"svc", ⟨"svc", "development", "1.0", .info⟩,
          [("tags", PVal.list 0 [PVal.str "a"])]⟩
          [("tags", PVal.list 0 [PVal.str "b"]), ("user", PVal.str "u")] 1).1).context)
    ∧ mapVals (mutateAt 1 (fun es => es ++ [PVal.str "z"]))
        [("tags", PVal.list 0 [PVal.str "a"])] = [("tags", PVal.list 0 [PVal.str "a"])] :=
  with_context_spec ⟨"svc", ⟨"svc", "development", "1.0", .info⟩,
    [("tags", PVal.list 0 [PVal.str "a"])]⟩
    [("tags", PVal.list 0 [PVal.str "b"]), ("user", PVal.str "u")] 1 0 1
    (fun es => es ++ [PVal.str "z"]) (fun es => es ++ [PVal.str "z"])
    (by decide) (by decide) (by decide)

theorem mem_keys_ddel {α : Type} (d : Dict α) (k x : String)
    (h : x ∈ (ddel d k).map Prod.fst) : x ∈ d.map Prod.fst := by
  induction d with
  | nil => simp [ddel] at h
  | cons p rest ih =>
      by_cases hp : p.1 = k
      · simp only [ddel, if_pos hp] at h
        simp only [List.map_cons, List.mem_cons]
        exact Or.inr h
      · simp only [ddel, if_neg hp, List.map_cons, List.mem_cons] at h ⊢
        rcases h with h | h
        · exact Or.inl h
        · exact Or.inr (ih h)

theorem nodupKeys_ddel {α : Type} (d : Dict α) (k : String) (hd : nodupKeys d) :
    nodupKeys (ddel d k) := by
  induction d with
  | nil => simpa [ddel] using hd
  | cons p rest ih =>
      simp only [nodupKeys, List.map_cons, List.nodup_cons] at hd
      by_cases hp : p.1 = k
      · simpa only [ddel, if_pos hp] using hd.2
      · simp only [ddel, if_neg hp, nodupKeys, List.map_cons, List.nodup_cons]
        exact ⟨fun hm => hd.1 (mem_keys_ddel rest k p.1 hm), ih hd.2⟩

/-- The root logger of the promotion scenario, with threshold DEBUG. -/
def scenarioRoot : Logger := ⟨"svc", ⟨"svc", "development", "1.0", .debug⟩, []⟩

/-- First derivation step of the scenario: `with_context(user_id="u1")`. -/
def scenarioStep1 : Logger × Nat :=
  Logger.with_context scenarioRoot [("user_id", PVal.str "u1")] 1

/-- Second derivation step: `.with_context(user_id="u2")`. -/
def scenarioLogger : Logger :=
  (Logger.with_context scenarioStep1.1 [("user_id", PVal.str "u2")] scenarioStep1.2).1

/-- The entry built by the scenario's log call. -/
def scenarioEntry : Entry :=
  buildEntry scenarioLogger.config scenarioLogger.name "t0" "h0" .info "msg" none
    scenarioLogger.context [] (capture_source_location 3 [])

/-- C4: each of the four reserved keys present in the merged context
(receiver context overlaid with call fields, fields winning) appears as
the corresponding top-level field of the built entry and is deleted
from the entry's nested context; every non-reserved key keeps exactly
its merged value in the nested context (and the entry has no other
top-level slot it could be promoted to).  In particular the
with_context(user_id="u1").with_context(user_id="u2") scenario logs an
entry whose top-level user_id is "u2". -/
theorem reserved_key_promotion (cfg : LogConfig) (logger_name ts host : String)
    (level : LogLevel) (message : String) (exc : Option ErrInfo)
    (ctx kwargs : Dict PVal) (source : SourceLocation) (k : String)
    (hctx : nodupKeys ctx) (hk : k ∉ special_keys) :
    ((buildEntry cfg logger_name ts host level message exc ctx kwargs
        source).correlation_id = dget (dmerge ctx kwargs) "correlation_id"
      ∧ dget (buildEntry cfg logger_name ts host level message exc ctx kwargs
          source).context "correlation_id" = none)
    ∧ ((buildEntry cfg logger_name ts host level message exc ctx kwargs
        source).user_id = dget (dmerge ctx kwargs) "user_id"
      ∧ dget (buildEntry cfg logger_name ts host level message exc ctx kwargs
          source).context "user_id" = none)
    ∧ ((buildEntry cfg logger_name ts host level message exc ctx kwargs
        source).trace_id = dget (dmerge ctx kwargs) "trace_id"
      ∧ dget (buildEntry cfg logger_name ts host level message exc ctx kwargs
          source).context "trace_id" = none)
    ∧ ((buildEntry cfg logger_name ts host level message exc ctx kwargs
        source).span_id = dget (dmerge ctx kwargs) "span_id"
      ∧ dget (buildEntry cfg logger_name ts host level message exc ctx kwargs
          source).context "span_id" = none)
    ∧ dget (buildEntry cfg logger_name ts host level message exc ctx kwargs
        source).context k = dget (dmerge ctx kwargs) k
    ∧ scenarioEntry.user_id = some (PVal.str "u2")
    ∧ dget scenarioEntry.context "user_id" = none := by
  have hm : nodupKeys (dmerge ctx kwargs) := nodupKeys_dmerge ctx kwargs hctx
  have hectx : (buildEntry cfg logger_name ts host level message exc ctx kwargs
      source).context =
      ddel (ddel (ddel (ddel (dmerge ctx kwargs) "correlation_id") "user_id") "trace_id")
        "span_id" := by
    simp [buildEntry, special_keys]
  have h1 : nodupKeys (ddel (dmerge ctx kwargs) "correlation_id") :=
    nodupKeys_ddel _ _ hm
  have h2 : nodupKeys (ddel (ddel (dmerge ctx kwargs) "correlation_id") "user_id") :=
    nodupKeys_ddel _ _ h1
  have h3 : nodupKeys (ddel (ddel (ddel (dmerge ctx kwargs) "correlation_id") "user_id")
      "trace_id") := nodupKeys_ddel _ _ h2
  simp only [List.mem_cons, special_keys, List.mem_singleton, not_or] at hk
  refine ⟨⟨rfl, ?_⟩, ⟨rfl, ?_⟩, ⟨rfl, ?_⟩, ⟨rfl, ?_⟩, ?_, rfl, rfl⟩
  · rw [hectx, dget_ddel_ne _ _ _ (by decide), dget_ddel_ne _ _ _ (by decide),
      dget_ddel_ne _ _ _ (by decide), dget_ddel_self _ _ hm]
  · rw [hectx, dget_ddel_ne _ _ _ (by decide), dget_ddel_ne _ _ _ (by decide),
      dget_ddel_self _ _ h1]
  · rw [hectx, dget_ddel_ne _ _ _ (by decide), dget_ddel_self _ _ h2]
  · rw [hectx, dget_ddel_self _ _ h3]
  · rw [hectx, dget_ddel_ne _ _ _ (fun he => hk.2.2.2.1 he.symm),
      dget_ddel_ne _ _ _ (fun he => hk.2.2.1 he.symm),
      dget_ddel_ne _ _ _ (fun he => hk.2.1 he.symm),
      dget_ddel_ne _ _ _ (fun he => hk.1 he.symm)]

/-- Witness for C4 at a concrete merged context holding all four
reserved keys and a plain key. -/
theorem reserved_key_promotion_witness :
    ((buildEntry ⟨"svc", "development", "1.0", .info⟩ "svc" "t0" "h0" .info "m" none
        [("correlation_id", PVal.str "c1"), ("request", PVal.str "r1")]
        [("user_id", PVal.str "u1"), ("trace_id", PVal.str "t1"),
         ("span_id", PVal.str "s1")]
        ⟨"main.py", 3, "run"⟩).correlation_id =
      dget (dmerge [("correlation_id", PVal.str "c1"), ("request", PVal.str "r1")]
        [("user_id", PVal.str "u1"), ("trace_id", PVal.str "t1"),
         ("span_id", PVal.str "s1")]) "correlation_id"
      ∧ dget (buildEntry ⟨"svc", "development", "1.0", .info⟩ "svc" "t0" "h0" .info "m" none
          [("correlation_id", PVal.str "c1"), ("request", PVal.str "r1")]
          [("user_id", PVal.str "u1"), ("trace_id", PVal.str "t1"),
           ("span_id", PVal.str "s1")]
          ⟨"main.py", 3, "run"⟩).context "correlation_id" = none)
    ∧ ((buildEntry ⟨"svc", "development", "1.0", .info⟩ "svc" "t0" "h0" .info "m" none
        [("correlation_id", PVal.str "c1"), ("request", PVal.str "r1")]
        [("user_id", PVal.str "u1"), ("trace_id", PVal.str "t1"),
         ("span_id", PVal.str "s1")]
        ⟨"main.py", 3, "run"⟩).user_id =
      dget (dmerge [("correlation_id", PVal.str "c1"), ("request", PVal.str "r1")]
        [("user_id", PVal.str "u1"), ("trace_id", PVal.str "t1"),
         ("span_id", PVal.str "s1")]) "user_id"
      ∧ dget (buildEntry ⟨"svc", "development", "1.0", .info⟩ "svc" "t0" "h0" .info "m" none
          [("correlation_id", PVal.str "c1"), ("request", PVal.str "r1")]
          [("user_id", PVal.str "u1"), ("trace_id", PVal.str "t1"),
           ("span_id", PVal.str "s1")]
          ⟨"main.py", 3, "run"⟩).context "user_id" = none)
    ∧ ((buildEntry ⟨"svc", "development", "1.0", .info⟩ "svc" "t0" "h0" .info "m" none
        [("correlation_id", PVal.str "c1"), ("request", PVal.str "r1")]
        [("user_id", PVal.str "u1"), ("trace_id", PVal.str "t1"),
         ("span_id", PVal.str "s1")]
        ⟨"main.py", 3, "run"⟩).trace_id =
      dget (dmerge [("correlation_id", PVal.str "c1"), ("request", PVal.str "r1")]
        [("user_id", PVal.str "u1"), ("trace_id", PVal.str "t1"),
         ("span_id", PVal.str "s1")]) "trace_id"
      ∧ dget (buildEntry ⟨"svc", "development", "1.0", .info⟩ "svc" "t0" "h0" .info "m" none
          [("correlation_id", PVal.str "c1"), ("request", PVal.str "r1")]
          [("user_id", PVal.str "u1"), ("trace_id", PVal.str "t1"),
           ("span_id", PVal.str "s1")]
          ⟨"main.py", 3, "run"⟩).context "trace_id" = none)
    ∧ ((buildEntry ⟨"svc", "development", "1.0", .info⟩ "svc" "t0" "h0" .info "m" none
        [("correlation_id", PVal.str "c1"), ("request", PVal.str "r1")]
        [("user_id", PVal.str "u1"), ("trace_id", PVal.str "t1"),
         ("span_id", PVal.str "s1")]
        ⟨"main.py", 3, "run"⟩).span_id =
      dget (dmerge [("correlation_id", PVal.str "c1"), ("request", PVal.str "r1")]
        [("user_id", PVal.str "u1"), ("trace_id", PVal.str "t1"),
         ("span_id", PVal.str "s1")]) "span_id"
      ∧ dget (buildEntry ⟨"svc", "development", "1.0", .info⟩ "svc" "t0" "h0" .info "m" none
          [("correlation_id", PVal.str "c1"), ("request", PVal.str "r1")]
          [("user_id", PVal.str "u1"), ("trace_id", PVal.str "t1"),
           ("span_id", PVal.str "s1")]
          ⟨"main.py", 3, "run"⟩).context "span_id" = none)
    ∧ dget (buildEntry ⟨"svc", "development", "1.0", .info⟩ "svc" "t0" "h0" .info "m" none
        [("correlation_id", PVal.str "c1"), ("request", PVal.str "r1")]
        [("user_id", PVal.str "u1"), ("trace_id", PVal.str "t1"),
         ("span_id", PVal.str "s1")]
        ⟨"main.py", 3, "run"⟩).context "request" =
      dget (dmerge [("correlation_id", PVal.str "c1"), ("request", PVal.str "r1")]
        [("user_id", PVal.str "u1"), ("trace_id", PVal.str "t1"),
         ("span_id", PVal.str "s1")]) "request"
    ∧ scenarioEntry.user_id = some (PVal.str "u2")
    ∧ dget scenarioEntry.context "user_id" = none :=
  reserved_key_promotion ⟨"svc", "development", "1.0", .info⟩ "svc" "t0" "h0" .info "m" none
    [("correlation_id", PVal.str "c1"), ("request", PVal.str "r1")]
    [("user_id", PVal.str "u1"), ("trace_id", PVal.str "t1"), ("span_id", PVal.str "s1")]
    ⟨"main.py", 3, "run"⟩ "request" (by decide) (by decide)

/-- The state of a `FileHandler`: the lines written to the file so far,
and whether the file object has been closed. -/
structure FileState where
  lines : List String
  closed : Bool
deriving DecidableEq

/-- The body of `FileHandler.emit` before its enclosing try/except:
serialize the entry and append `output + newline` to the open file.  An
injected `fault` stands for an I/O or serialization error raised
anywhere in the body. -/
def FileHandler.emitRaw (fmt : Entry → String) (st : FileState) (entry : Entry)
    (fault : Option String) : Except String FileState :=
  match fault with
  | some e => .error e
  | none => if st.closed then .ok st else .ok ⟨st.lines ++ [fmt entry ++ "\n"], false⟩

/-- `FileHandler.emit`: the body wrapped in try/except Exception: pass —
a failure leaves the handler state untouched and is never re-raised. -/
def FileHandler.emit (fmt : Entry → String) (st : FileState) (entry : Entry)
    (fault : Option String) : FileState :=
  match FileHandler.emitRaw fmt st entry fault with
  | .ok s => s
  | .error _ => st

/-- Body of `FileHandler.flush` before its try/except. -/
def FileHandler.flushRaw (st : FileState) (fault : Option String) :
    Except String FileState :=
  match fault with
  | some e => .error e
  | none => .ok st

/-- `FileHandler.flush` with its try/except. -/
def FileHandler.flush (st : FileState) (fault : Option String) : FileState :=
  match FileHandler.flushRaw st fault with
  | .ok s => s
  | .error _ => st

/-- Body of `FileHandler.close` before its try/except. -/
def FileHandler.closeRaw (st : FileState) (fault : Option String) :
    Except String FileState :=
  match fault with
  | some e => .error e
  | none => .ok ⟨st.lines, true⟩

/-- `FileHandler.close` with its try/except. -/
def FileHandler.close (st : FileState) (fault : Option String) : FileState :=
  match FileHandler.closeRaw st fault with
  | .ok s => s
  | .error _ => st

/-- The handler loop of `Logger._log` in a semantics where an uncaught
exception inside a step would abort the loop and propagate to the
caller. -/
def emitLoopE {β : Type} (step : β → Except String FileState) :
    List β → Except String (List FileState)
| [] => .ok []
| p :: rest => do
    let s ← step p
    let out ← emitLoopE step rest
    pure (s :: out)

/-- `Logger._log` over file handlers with injected faults (one optional
fault per handler): filter on level, build the entry once, then emit it
to each handler in order, with handler errors propagating if a handler
ever let one escape.  `FileHandler.emit` never does, so the loop step is
total. -/
def Logger.logRun (L : Logger) (level : LogLevel) (message : String) (exc : Option ErrInfo)
    (kwargs : Dict PVal) (frames : List Frame) (ts host : String) (fmt : Entry → String)
    (hs : List (FileState × Option String)) : Except String (List FileState) :=
  if level.value < L.config.level.value then .ok (hs.map Prod.fst)
  else
    let entry := buildEntry L.config L.name ts host level message exc L.context kwargs
      (capture_source_location 3 frames)
    emitLoopE (fun p => .ok (FileHandler.emit fmt p.1 entry p.2)) hs

theorem emitLoopE_ok {β : Type} (g : β → FileState) (l : List β) :
    emitLoopE (fun b => .ok (g b)) l = .ok (l.map g) := by
  induction l with
  | nil => rfl
  | cons p rest ih =>
      simp only [emitLoopE, ih]
      rfl

/-- C5: a log call never raises into the caller: for every fault
assignment the fan-out returns normally (`.ok`), a handler whose emit
body faults is skipped with its state untouched, while a healthy open
handler in the same chain still receives the record; flush and close
likewise swallow their faults. -/
theorem handler_errors_suppressed (L : Logger) (level : LogLevel) (message : String)
    (exc : Option ErrInfo) (kwargs : Dict PVal) (frames : List Frame) (ts host : String)
    (fmt : Entry → String) (hs : List (FileState × Option String))
    (i j : Nat) (sti stj : FileState) (ei : String) (level' : LogLevel)
    (hs' : List (FileState × Option String))
    (hi : hs[i]? = some (sti, some ei)) (hj : hs[j]? = some (stj, none))
    (hopen : stj.closed = false) (hlev : L.config.level.value ≤ level.value) :
    (∃ out : List FileState,
        Logger.logRun L level message exc kwargs frames ts host fmt hs = .ok out
        ∧ out[i]? = some sti
        ∧ out[j]? = some ⟨stj.lines ++
            [fmt (buildEntry L.config L.name ts host level message exc L.context kwargs
              (capture_source_location 3 frames)) ++ "\n"], false⟩)
    ∧ (Logger.logRun L level' message exc kwargs frames ts host fmt hs').isOk = true
    ∧ FileHandler.flush sti (some ei) = sti
    ∧ FileHandler.close sti (some ei) = sti := by
  refine ⟨?_, ?_, rfl, rfl⟩
  · refine ⟨hs.map (fun p => FileHandler.emit fmt p.1
      (buildEntry L.config L.name ts host level message exc L.context kwargs
        (capture_source_location 3 frames)) p.2), ?_, ?_, ?_⟩
    · rw [Logger.logRun, if_neg (Nat.not_lt.mpr hlev)]
      exact emitLoopE_ok _ hs
    · rw [List.getElem?_map, hi]
      rfl
    · rw [List.getElem?_map, hj]
      simp [FileHandler.emit, FileHandler.emitRaw, hopen]
  · rw [Logger.logRun]
    by_cases h : level'.value < L.config.level.value
    · rw [if_pos h]; rfl
    · rw [if_neg h, emitLoopE_ok]; rfl

/-- Witness for C5: two handlers, the first faulting, the second
healthy. -/
theorem handler_errors_suppressed_witness :
    (∃ out : List FileState,
        Logger.logRun ⟨"svc", ⟨"svc", "development", "1.0", .info⟩, []⟩ .error "bad" none []
          [] "t0" "h0" (fun e => e.message) [(⟨[], false⟩, some "disk full"), (⟨[], false⟩, none)] =
          .ok out
        ∧ out[0]? = some ⟨[], false⟩
        ∧ out[1]? = some ⟨([] : List String) ++
            [(fun (e : Entry) => e.message) (buildEntry ⟨"svc", "development", "1.0", .info⟩
              "svc" "t0" "h0" .error "bad" none [] []
              (capture_source_location 3 [])) ++ "\n"], false⟩)
    ∧ (Logger.logRun ⟨"svc", ⟨"svc", "development", "1.0", .info⟩, []⟩ .debug "bad" none []
        [] "t0" "h0" (fun e => e.message)
        [(⟨[], false⟩, some "disk full")]).isOk = true
    ∧ FileHandler.flush ⟨[], false⟩ (some "disk full") = ⟨[], false⟩
    ∧ FileHandler.close ⟨[], false⟩ (some "disk full") = ⟨[], false⟩ :=
  handler_errors_suppressed ⟨"svc", ⟨"svc", "development", "1.0", .info⟩, []⟩ .error "bad"
    none [] [] "t0" "h0" (fun e => e.message)
    [(⟨[], false⟩, some "disk full"), (⟨[], false⟩, none)] 0 1 ⟨[], false⟩ ⟨[], false⟩
    "disk full" .debug [(⟨[], false⟩, some "disk full")] rfl rfl rfl (by decide)

/-- `async_handler.QueueFullBehavior`. -/
inductive QueueFullBehavior where
| drop
| block
| fallback
deriving DecidableEq

/-- An item in the async queue: a queued log entry, or the shutdown
sentinel (`None` in the source). -/
inductive QItem (α : Type) where
| item (e : α)
| sentinel
deriving DecidableEq

/-- The state of an `AsyncHandler` over entries of type `α`, with the
underlying handler modelled by the list of entries emitted to it
(`written`): `queue` is the bounded queue of capacity `capacity`,
`stop` the `_stop` flag, `dropped` the dropped-entry counter, `batch`
the consumer thread's accumulator and `batchSize` the configured batch
size. -/
structure AState (α : Type) where
  capacity : Nat
  queue : List (QItem α)
  stop : Bool
  dropped : Nat
  batch : List α
  written : List α
  batchSize : Nat
deriving DecidableEq

/-- Outcome of one `AsyncHandler.emit` call: the call returns (`done`),
or — only under the Block policy with a full queue — the calling thread
is left waiting for space (`wouldBlock`). -/
inductive EmitOut (α : Type) where
| done (s : AState α)
| wouldBlock (s : AState α)
deriving DecidableEq

/-- `AsyncHandler.emit`: a no-op once `_stop` is set; otherwise Block
waits for space, Fallback counts the overflow and writes synchronously
through the underlying handler, and Drop (the default) counts the
overflow and discards the record.  `put_nowait` succeeds exactly when
the queue holds fewer items than its capacity. -/
def AsyncHandler.emit {α : Type} (pol : QueueFullBehavior) (s : AState α) (e : α) :
    EmitOut α :=
  if s.stop then .done s
  else
    match pol with
    | .block =>
        if s.queue.length < s.capacity then .done {s with queue := s.queue ++ [.item e]}
        else .wouldBlock s
    | .fallback =>
        if s.queue.length < s.capacity then .done {s with queue := s.queue ++ [.item e]}
        else .done {s with dropped := s.dropped + 1, written := s.written ++ [e]}
    | .drop =>
        if s.queue.length < s.capacity then .done {s with queue := s.queue ++ [.item e]}
        else .done {s with dropped := s.dropped + 1}

/-- A fresh `AsyncHandler` state: empty queue, running, nothing dropped,
nothing written. -/
def initA (α : Type) (cap B : Nat) : AState α := ⟨cap, [], false, 0, [], [], B⟩

/-- A sequence of Drop-policy emit calls from producer threads while the
consumer is stalled (it never runs between the calls). -/
def emitDropSeq {α : Type} (s : AState α) (es : List α) : AState α :=
  es.foldl (fun st e =>
    match AsyncHandler.emit .drop st e with
    | .done s' => s'
    | .wouldBlock s' => s') s

theorem emit_drop_is_done {α : Type} (st : AState α) (e : α) :
    ∃ s', AsyncHandler.emit .drop st e = .done s' := by
  rw [AsyncHandler.emit]
  by_cases hs : st.stop
  · exact ⟨st, if_pos hs⟩
  · rw [if_neg hs]
    by_cases hq : st.queue.length < st.capacity
    · exact ⟨_, if_pos hq⟩
    · exact ⟨_, if_neg hq⟩

theorem emitDropSeq_invariant {α : Type} (es : List α) (s : AState α)
    (hstop : s.stop = false) (hq : s.queue.length ≤ s.capacity) :
    (emitDropSeq s es).stop = false
    ∧ (emitDropSeq s es).capacity = s.capacity
    ∧ (emitDropSeq s es).queue.length ≤ s.capacity
    ∧ (emitDropSeq s es).dropped + (emitDropSeq s es).queue.length
        = s.dropped + s.queue.length + es.length
    ∧ (emitDropSeq s es).queue.length = min (s.queue.length + es.length) s.capacity := by
  induction es generalizing s with
  | nil =>
      refine ⟨hstop, rfl, hq, rfl, ?_⟩
      simp [emitDropSeq]
      omega
  | cons e rest ih =>
      have hstep : emitDropSeq s (e :: rest) =
          emitDropSeq (match AsyncHandler.emit .drop s e with
            | .done s' => s'
            | .wouldBlock s' => s') rest := by
        simp [emitDropSeq]
      by_cases hlt : s.queue.length < s.capacity
      · have hemit : AsyncHandler.emit .drop s e = .done {s with queue := s.queue ++ [.item e]} := by
          rw [AsyncHandler.emit, if_neg (by simp [hstop]), if_pos hlt]
        rw [hstep, hemit]
        have := ih {s with queue := s.queue ++ [.item e]} hstop (by simp; omega)
        simp only [List.length_append, List.length_cons] at this ⊢
        obtain ⟨h1, h2, h3, h4, h5⟩ := this
        refine ⟨h1, h2, by simpa using h3, by simp at h4 ⊢; omega, by simp at h5 ⊢; omega⟩
      · have hemit : AsyncHandler.emit .drop s e = .done {s with dropped := s.dropped + 1} := by
          rw [AsyncHandler.emit, if_neg (by simp [hstop]), if_neg hlt]
        rw [hstep, hemit]
        have := ih {s with dropped := s.dropped + 1} hstop (by simpa using hq)
        obtain ⟨h1, h2, h3, h4, h5⟩ := this
        refine ⟨h1, h2, by simpa using h3, by simp at h4 ⊢; omega, by simp at h5 ⊢; omega⟩

/-- C6: with the Drop policy and a stalled consumer, every one of the
`N = es.length` emit attempts returns without blocking, and afterwards
the dropped counter equals `N` minus the number of records actually
queued; the queue holds `min N Q` records for capacity `Q`. -/
theorem drop_policy_counts {α : Type} (cap B : Nat) (es : List α) (st' : AState α)
    (e' : α) :
    (emitDropSeq (initA α cap B) es).dropped
        = es.length - (emitDropSeq (initA α cap B) es).queue.length
    ∧ (emitDropSeq (initA α cap B) es).dropped
        + (emitDropSeq (initA α cap B) es).queue.length = es.length
    ∧ (emitDropSeq (initA α cap B) es).queue.length = min es.length cap
    ∧ (∃ s', AsyncHandler.emit .drop st' e' = .done s') := by
  have hinv := emitDropSeq_invariant es (initA α cap B) rfl (by simp [initA])
  obtain ⟨h1, h2, h3, h4, h5⟩ := hinv
  have hq0 : (initA α cap B).queue.length = 0 := rfl
  have hc0 : (initA α cap B).capacity = cap := rfl
  have hd0 : (initA α cap B).dropped = 0 := rfl
  rw [hq0, hd0] at h4
  rw [hq0, hc0] at h5
  exact ⟨by omega, by omega, by simpa using h5, emit_drop_is_done st' e'⟩

/-- `AsyncHandler.close` up to the point where the worker thread is
joined: set `_stop`, then try to enqueue the sentinel (dropped silently
if the queue is full). -/
def AsyncHandler.close {α : Type} (s : AState α) : AState α :=
  let s1 : AState α := {s with stop := true}
  if s1.queue.length < s1.capacity then {s1 with queue := s1.queue ++ [.sentinel]} else s1

/-- `AsyncHandler._process_queue`, one bounded run of the consumer loop:
each iteration first checks `_stop` (exiting immediately when set),
then takes the next queued item; the sentinel flushes the partial batch
and exits; an entry joins the batch, which is flushed to the underlying
handler when it reaches `batchSize` or when the batch timeout has
elapsed (the oracle `tout` says whether the timeout fired at a given
remaining-fuel step); an empty queue (a `get` timeout) can also flush a
non-empty batch. -/
def consumerLoop {α : Type} (tout : Nat → Bool) : Nat → AState α → AState α
| 0, s => s
| Nat.succ fuel, s =>
    if s.stop then s
    else
      match s.queue with
      | [] =>
          if tout fuel && !s.batch.isEmpty then
            consumerLoop tout fuel {s with written := s.written ++ s.batch, batch := []}
          else consumerLoop tout fuel s
      | .sentinel :: rest =>
          {s with queue := rest, written := s.written ++ s.batch, batch := []}
      | .item e :: rest =>
          let s1 := {s with queue := rest, batch := s.batch ++ [e]}
          if s1.batchSize ≤ s1.batch.length || (tout fuel && !s1.batch.isEmpty) then
            consumerLoop tout fuel {s1 with written := s1.written ++ s1.batch, batch := []}
          else consumerLoop tout fuel s1

/-- The C7 run: two records were successfully enqueued (queue capacity
4, consumer not yet scheduled), then `close()` runs. -/
def c7closed : AState Nat :=
  AsyncHandler.close ⟨4, [.item 1, .item 2], false, 0, [], [], 100⟩

/-- C7 refuted on the code: `close()` sets `_stop` before enqueuing the
sentinel, and the consumer loop checks `_stop` before every `get`, so
a consumer scheduled after `close()` exits at once: the two
successfully enqueued records are never delivered to the underlying
handler (`written` stays empty, for every schedule length and timeout
oracle) and the sentinel is never read — no drain-to-sentinel happens,
contradicting the claimed zero-loss delivery. -/
theorem close_skips_sentinel_drain (tout : Nat → Bool) (fuel : Nat) :
    c7closed.queue = [.item 1, .item 2, .sentinel]
    ∧ c7closed.stop = true
    ∧ (consumerLoop tout fuel c7closed).written = []
    ∧ (consumerLoop tout fuel c7closed).queue = [.item 1, .item 2, .sentinel] := by
  have hloop : consumerLoop tout fuel c7closed = c7closed := by
    cases fuel with
    | zero => rfl
    | succ n =>
        rw [consumerLoop]
        exact if_pos (by rfl)
  exact ⟨rfl, rfl, by rw [hloop]; rfl, by rw [hloop]; rfl⟩

/-- C10: once `close()` has run (or more generally whenever `_stop` is
set), every further `emit` call, under every overflow policy, returns
immediately with the state unchanged: nothing is enqueued, nothing is
written through the underlying handler, and the dropped counter is not
incremented. -/
theorem emit_after_close_noop {α : Type} (pol : QueueFullBehavior) (s t : AState α)
    (e : α) (h : t.stop = true) :
    (AsyncHandler.close s).stop = true ∧ AsyncHandler.emit pol t e = .done t := by
  constructor
  · rw [AsyncHandler.close]
    by_cases hq : s.queue.length < s.capacity
    · simp only [if_pos hq]
    · simp only [if_neg hq]
  · rw [AsyncHandler.emit.eq_def, if_pos h]

/-- Witness for C10 at a closed handler holding a queued record. -/
theorem emit_after_close_noop_witness :
    (AsyncHandler.close (⟨2, [], false, 0, [], [], 10⟩ : AState Nat)).stop = true
    ∧ AsyncHandler.emit .fallback (⟨2, [.item 5, .sentinel], true, 3, [], [7], 10⟩ : AState Nat) 9
        = .done ⟨2, [.item 5, .sentinel], true, 3, [], [7], 10⟩ :=
  emit_after_close_noop .fallback ⟨2, [], false, 0, [], [], 10⟩
    ⟨2, [.item 5, .sentinel], true, 3, [], [7], 10⟩ 9 rfl

/-- The files a `RotatingFileHandler` touches: the primary log file at
the configured path, and its numbered backups `path.i`. -/
inductive FName where
| primary
| backup (i : Nat)
deriving DecidableEq

/-- The directory state: which of those files exist, with contents. -/
abbrev FS := FName → Option String

/-- Overwrite one file's contents, or delete it with `none`. -/
def fsSet (fs : FS) (n : FName) (c : Option String) : FS :=
  fun m => if m = n then c else fs m

/-- UTF-8 width of one character. -/
def charBytes (c : Char) : Nat :=
  if c.toNat < 128 then 1
  else if c.toNat < 2048 then 2
  else if c.toNat < 65536 then 3
  else 4

/-- `len(s.encode("utf-8"))`. -/
def utf8Len (s : String) : Nat := s.data.foldl (fun n c => n + charBytes c) 0

/-- The state of a `RotatingFileHandler`: rotation threshold, retention
count, and the byte counter of the currently open primary file. -/
structure RotState where
  max_bytes : Int
  backup_count : Nat
  current_size : Nat
deriving DecidableEq

/-- One step of the backup loop of `_do_rotate`: when `path.i` exists,
delete any existing `path.(i+1)` and rename `path.i` to it. -/
def rotateOne (fs : FS) (i : Nat) : FS :=
  match fs (.backup i) with
  | none => fs
  | some c => fsSet (fsSet fs (.backup (i + 1)) (some c)) (.backup i) none

/-- The loop `for i in range(backup_count - 1, 0, -1)`. -/
def rotateBackups (bc : Nat) (fs : FS) : FS :=
  ((List.range' 1 (bc - 1)).reverse).foldl rotateOne fs

/-- The tail of `_do_rotate`: when the primary exists, delete any
existing `path.1` and rename the primary to it. -/
def RotatingFileHandler.renamePrimary (fs : FS) : FS :=
  match fs FName.primary with
  | none => fs
  | some c => fsSet (fsSet fs (FName.backup 1) (some c)) FName.primary none

/-- `RotatingFileHandler._do_rotate`: rotate the numbered backups, move
the primary to `.1`, reopen the primary fresh (append mode creates an
empty file) and reset the size counter to 0. -/
def RotatingFileHandler.do_rotate (st : RotState) (fs : FS) : RotState × FS :=
  ({st with current_size := 0},
   fsSet (RotatingFileHandler.renamePrimary (rotateBackups st.backup_count fs))
     FName.primary (some ""))

/-- `RotatingFileHandler._should_rotate`. -/
def RotatingFileHandler.should_rotate (st : RotState) (message_size : Nat) : Bool :=
  0 < st.max_bytes && st.max_bytes < (st.current_size : Int) + message_size

/-- The write step of `emit`: append the serialized output to the open
primary file and add its byte length to the size counter. -/
def RotatingFileHandler.write : RotState × FS → String → RotState × FS
| (st, fs), output =>
    ({st with current_size := st.current_size + utf8Len output},
     fsSet fs FName.primary (some (((fs FName.primary).getD "") ++ output)))

/-- `RotatingFileHandler.emit` for a record whose serialized form is
`line` (JSON serialization is an external collaborator): under the
handler's lock, rotate first when appending `line + newline` would push
the size counter past `max_bytes`, then write. -/
def RotatingFileHandler.emit (st : RotState) (fs : FS) (line : String) : RotState × FS :=
  if RotatingFileHandler.should_rotate st (utf8Len (line ++ "\n")) then
    RotatingFileHandler.write (RotatingFileHandler.do_rotate st fs) (line ++ "\n")
  else
    RotatingFileHandler.write (st, fs) (line ++ "\n")

/-- The directory of the C8 counterexample: only the primary exists,
holding four bytes. -/
def cexFS : FS := fun n => if n = FName.primary then some "aaaa" else none

/-- C8 counterexample: `max_bytes = 5`, `backup_count = 0`, size counter
4; writing the three-byte record "xy" triggers rotation (4 + 3 > 5), yet
after the call the backup file `path.1` exists and holds the old primary
content — the claim "no backup file exists after the rotation" is false
on the code, which renames the primary to `.1` regardless of
`backup_count`. -/
theorem backup_zero_cex :
    (RotatingFileHandler.emit ⟨5, 0, 4⟩ cexFS "xy").2 (FName.backup 1) = some "aaaa"
    ∧ ¬ (RotatingFileHandler.emit ⟨5, 0, 4⟩ cexFS "xy").2 (FName.backup 1) = none
    ∧ (RotatingFileHandler.emit ⟨5, 0, 4⟩ cexFS "xy").2 FName.primary = some "xy\n"
    ∧ (RotatingFileHandler.emit ⟨5, 0, 4⟩ cexFS "xy").1.current_size = 3 := by
  refine ⟨rfl, ?_, rfl, rfl⟩
  intro h
  rw [show (RotatingFileHandler.emit ⟨5, 0, 4⟩ cexFS "xy").2 (FName.backup 1)
      = some "aaaa" from rfl] at h
  exact Option.noConfusion h

/-- C8 amended: with `backup_count = 0` and `max_bytes > 0`, a write
that would push the size counter past `max_bytes` still triggers
rotation, and the old primary content is renamed to `path.1` rather
than discarded: after the call exactly that backup holds the old
content, the primary holds just the new record, the size counter equals
the new record's byte length, and no higher-numbered backup is touched.
(The old content is only discarded one rotation later, when `path.1` is
overwritten.) -/
theorem backup_zero_rotates (st : RotState) (fs : FS) (line c : String) (j : Nat)
    (hbc : st.backup_count = 0) (hmb : 0 < st.max_bytes)
    (hrot : st.max_bytes < (st.current_size : Int) + utf8Len (line ++ "\n"))
    (hp : fs FName.primary = some c) (hj : 2 ≤ j) :
    (RotatingFileHandler.emit st fs line).2 (FName.backup 1) = some c
    ∧ (RotatingFileHandler.emit st fs line).2 FName.primary = some (line ++ "\n")
    ∧ (RotatingFileHandler.emit st fs line).1.current_size = utf8Len (line ++ "\n")
    ∧ (RotatingFileHandler.emit st fs line).2 (FName.backup j) = fs (FName.backup j) := by
  have hms : RotatingFileHandler.should_rotate st (utf8Len (line ++ "\n")) = true := by
    simp only [RotatingFileHandler.should_rotate, Bool.and_eq_true, decide_eq_true_eq]
    exact ⟨hmb, hrot⟩
  have hrb : rotateBackups st.backup_count fs = fs := by
    rw [hbc]; rfl
  have hrn : RotatingFileHandler.renamePrimary fs =
      fsSet (fsSet fs (FName.backup 1) (some c)) FName.primary none := by
    simp [RotatingFileHandler.renamePrimary, hp]
  have hj1 : FName.backup j ≠ FName.backup 1 := by
    intro h
    injection h with h
    omega
  rw [RotatingFileHandler.emit, if_pos hms, RotatingFileHandler.do_rotate, hrb, hrn]
  refine ⟨?_, ?_, ?_, ?_⟩
  · simp [RotatingFileHandler.write, fsSet]
  · simp [RotatingFileHandler.write, fsSet]
  · simp [RotatingFileHandler.write]
  · simp [RotatingFileHandler.write, fsSet, hj1]

/-- Witness for the amended C8 at the counterexample input. -/
theorem backup_zero_rotates_witness :
    (RotatingFileHandler.emit ⟨5, 0, 4⟩ cexFS "xy").2 (FName.backup 1) = some "aaaa"
    ∧ (RotatingFileHandler.emit ⟨5, 0, 4⟩ cexFS "xy").2 FName.primary = some ("xy" ++ "\n")
    ∧ (RotatingFileHandler.emit ⟨5, 0, 4⟩ cexFS "xy").1.current_size = utf8Len ("xy" ++ "\n")
    ∧ (RotatingFileHandler.emit ⟨5, 0, 4⟩ cexFS "xy").2 (FName.backup 2)
        = cexFS (FName.backup 2) :=
  backup_zero_rotates ⟨5, 0, 4⟩ cexFS "xy" "aaaa" 2 rfl (by decide) (by decide) rfl
    (by decide)

/-- `Logger.timer(operation, fields)` as one scoped run: the wrapped
work either returns normally or raises; on both exit paths the finally
block computes `duration_ms = (t1 - t0) * 1000` from the monotonic
clock readings `t0` (scope entry) and `t1` (scope exit) and makes
exactly one `_log(INFO, operation, duration_ms=..., **fields)` call;
the work's outcome then propagates to the caller. -/
def Logger.timer (L : Logger) (operation : String) (kwargs : Dict PVal)
    (work : Except ErrInfo Unit) (t0 t1 : Rat) (frames : List Frame) (ts host : String)
    (handlers : List (List Entry)) : Except ErrInfo Unit × List (List Entry) :=
  match work with
  | .ok () =>
      (.ok (), Logger.log L .info operation none
        (dmerge [("duration_ms", PVal.num ((t1 - t0) * 1000))] kwargs)
        frames ts host handlers)
  | .error ex =>
      (.error ex, Logger.log L .info operation none
        (dmerge [("duration_ms", PVal.num ((t1 - t0) * 1000))] kwargs)
        frames ts host handlers)

/-- The C9 counterexample run: configured threshold ERROR, one handler,
a timer scope exiting normally. -/
def timerCexRun : Except ErrInfo Unit × List (List Entry) :=
  Logger.timer ⟨"svc", ⟨"svc", "development", "1.0", .error⟩, []⟩ "op" [] (.ok ()) 0 1
    [] "t0" "h0" [[]]

/-- C9 counterexample: with threshold ERROR the timer's single
`_log(INFO, ...)` call is filtered out, so the scope emits zero records
to the handler, not the claimed exactly one. -/
theorem timer_zero_records_cex :
    timerCexRun.2 = [[]]
    ∧ (timerCexRun.2.headD []).length = 0
    ∧ ¬ (timerCexRun.2.headD []).length = 1 :=
  ⟨rfl, rfl, by decide⟩

/-- C9 amended: on every exit path, normal or erroring, the timer makes
exactly one INFO-level log call with the label as message and
`duration_ms = (t1 - t0) * 1000 ≥ 0` merged with the fields — but the
built record reaches the handlers only when INFO passes the configured
threshold (`value ≤ 20`); then each handler receives exactly one record
(level "INFO", message = label, `duration_ms ≥ 0` in its context), and
with a higher threshold the scope emits nothing. -/
theorem timer_one_record (L : Logger) (operation : String) (kwargs : Dict PVal)
    (work : Except ErrInfo Unit) (t0 t1 : Rat) (frames : List Frame) (ts host : String)
    (handlers : List (List Entry)) (i : Nat) (hl : List Entry)
    (hlev : L.config.level.value ≤ 20) (ht : t0 ≤ t1)
    (hkw : dget kwargs "duration_ms" = none) (hi : handlers[i]? = some hl) :
    ((Logger.timer L operation kwargs work t0 t1 frames ts host handlers).2)[i]? =
      some (hl ++ [buildEntry L.config L.name ts host .info operation none L.context
        (dmerge [("duration_ms", PVal.num ((t1 - t0) * 1000))] kwargs)
        (capture_source_location 3 frames)])
    ∧ (Logger.timer L operation kwargs work t0 t1 frames ts host handlers).1 = work
    ∧ (buildEntry L.config L.name ts host .info operation none L.context
        (dmerge [("duration_ms", PVal.num ((t1 - t0) * 1000))] kwargs)
        (capture_source_location 3 frames)).message = operation
    ∧ (buildEntry L.config L.name ts host .info operation none L.context
        (dmerge [("duration_ms", PVal.num ((t1 - t0) * 1000))] kwargs)
        (capture_source_location 3 frames)).level = "INFO"
    ∧ dget (buildEntry L.config L.name ts host .info operation none L.context
        (dmerge [("duration_ms", PVal.num ((t1 - t0) * 1000))] kwargs)
        (capture_source_location 3 frames)).context "duration_ms"
        = some (PVal.num ((t1 - t0) * 1000))
    ∧ 0 ≤ (t1 - t0) * 1000 := by
  have hdisp : (Logger.timer L operation kwargs work t0 t1 frames ts host handlers).2 =
      Logger.log L .info operation none
        (dmerge [("duration_ms", PVal.num ((t1 - t0) * 1000))] kwargs)
        frames ts host handlers := by
    cases work with
    | ok u => cases u; rfl
    | error ex => rfl
  have hnotlt : ¬ LogLevel.value .info < L.config.level.value := by
    rw [show LogLevel.value .info = 20 from rfl]
    omega
  have hkwAll : dget (dmerge [("duration_ms", PVal.num ((t1 - t0) * 1000))] kwargs)
      "duration_ms" = some (PVal.num ((t1 - t0) * 1000)) := by
    rw [dget_dmerge_of_none _ _ _ hkw]
    simp [dget]
  have hnd : nodupKeys (dmerge [("duration_ms", PVal.num ((t1 - t0) * 1000))] kwargs) :=
    nodupKeys_dmerge _ kwargs (by simp [nodupKeys])
  have hmerged : dget (dmerge L.context
      (dmerge [("duration_ms", PVal.num ((t1 - t0) * 1000))] kwargs)) "duration_ms"
      = some (PVal.num ((t1 - t0) * 1000)) :=
    dget_dmerge_of_some _ _ _ _ hnd hkwAll
  refine ⟨?_, ?_, rfl, rfl, ?_, ?_⟩
  · rw [hdisp, Logger.log, if_neg hnotlt]
    simp [List.getElem?_map, hi]
  · cases work with
    | ok u => cases u; rfl
    | error ex => rfl
  · have hectx : (buildEntry L.config L.name ts host .info operation none L.context
        (dmerge [("duration_ms", PVal.num ((t1 - t0) * 1000))] kwargs)
        (capture_source_location 3 frames)).context =
        ddel (ddel (ddel (ddel (dmerge L.context
          (dmerge [("duration_ms", PVal.num ((t1 - t0) * 1000))] kwargs))
          "correlation_id") "user_id") "trace_id") "span_id" := by
      simp [buildEntry, special_keys]
    rw [hectx, dget_ddel_ne _ _ _ (by decide), dget_ddel_ne _ _ _ (by decide),
      dget_ddel_ne _ _ _ (by decide), dget_ddel_ne _ _ _ (by decide), hmerged]
  · have h1 : (0 : Rat) ≤ t1 - t0 := by linarith
    have h2 : (0 : Rat) ≤ 1000 := by norm_num
    exact mul_nonneg h1 h2

/-- Witness for the amended C9 on the erroring exit path with threshold
DEBUG. -/
theorem timer_one_record_witness :
    ((Logger.timer ⟨"svc", ⟨"svc", "development", "1.0", .debug⟩, []⟩ "op"
        [("attempt", PVal.num 2)] (.error ⟨"ValueError", "boom", ""⟩) 0 1 [] "t0" "h0"
        [[]]).2)[0]? =
      some ([] ++ [buildEntry ⟨"svc", "development", "1.0", .debug⟩ "svc" "t0" "h0" .info
        "op" none []
        (dmerge [("duration_ms", PVal.num ((1 - 0) * 1000))] [("attempt", PVal.num 2)])
        (capture_source_location 3 [])])
    ∧ (Logger.timer ⟨"svc", ⟨"svc", "development", "1.0", .debug⟩, []⟩ "op"
        [("attempt", PVal.num 2)] (.error ⟨"ValueError", "boom", ""⟩) 0 1 [] "t0" "h0"
        [[]]).1 = .error ⟨"ValueError", "boom", ""⟩
    ∧ (buildEntry ⟨"svc", "development", "1.0", .debug⟩ "svc" "t0" "h0" .info "op" none []
        (dmerge [("duration_ms", PVal.num ((1 - 0) * 1000))] [("attempt", PVal.num 2)])
        (capture_source_location 3 [])).message = "op"
    ∧ (buildEntry ⟨"svc", "development", "1.0", .debug⟩ "svc" "t0" "h0" .info "op" none []
        (dmerge [("duration_ms", PVal.num ((1 - 0) * 1000))] [("attempt", PVal.num 2)])
        (capture_source_location 3 [])).level = "INFO"
    ∧ dget (buildEntry ⟨"svc", "development", "1.0", .debug⟩ "svc" "t0" "h0" .info "op" none
        []
        (dmerge [("duration_ms", PVal.num ((1 - 0) * 1000))] [("attempt", PVal.num 2)])
        (capture_source_location 3 [])).context "duration_ms"
        = some (PVal.num ((1 - 0) * 1000))
    ∧ (0 : Rat) ≤ (1 - 0) * 1000 :=
  timer_one_record ⟨"svc", ⟨"svc", "development", "1.0", .debug⟩, []⟩ "op"
    [("attempt", PVal.num 2)] (.error ⟨"ValueError", "boom", ""⟩) 0 1 [] "t0" "h0" [[]]
    0 [] (by decide) (by norm_num) rfl rfl

end AgoraLog
